import Mathlib

/-!
Verification of the tile-extractor / RSS-feed generator (`src/main.py`).

The program is a single-pass, event-driven HTML scraper (`TileParser`, a
`html.parser.HTMLParser` subclass) followed by whitespace normalization
(`fetch_tiles`), an RSS 2.0 builder over `xml.etree.ElementTree`
(`generate_rss`), a fixed static index page (`INDEX_HTML`) and a small CLI
(`main`).

The embedding below mirrors the source:
* `ParserState` holds exactly the mutable fields of `TileParser`
  (`tiles`, `_in_tile`, `_in_title`, `_in_desc`, `_current`, `_depth`).
* The three handler callbacks become pure state-transition functions
  `handle_starttag`, `handle_endtag`, `handle_data`; feeding a document is a
  left fold of the tokenizer's event stream (start-tag, end-tag, text data)
  through `handle_event`.  The stdlib tokenizer itself (`HTMLParser.feed`)
  is not part of this repository, so inputs are modelled at the event level.
* Python's `"x" in s` substring test becomes `pyIn`, `dict(attrs).get("class", "")`
  becomes `getClassAttr` (last binding of the key wins, default `""`),
  and `" ".join(s.split())` becomes `pyNormalize`.
-/

/-- One extracted tile: the `{"title": ..., "summary": ...}` dict of the source. -/
structure Tile where
  title : String
  summary : String
deriving Repr, DecidableEq

/-- The mutable state of `TileParser` (`src/main.py`, `__init__`). -/
structure ParserState where
  tiles : List Tile
  in_tile : Bool
  in_title : Bool
  in_desc : Bool
  current : Tile
  depth : Int
deriving Repr, DecidableEq

/-- Initial parser state, as set up by `TileParser.__init__`. -/
def initState : ParserState :=
  { tiles := [], in_tile := false, in_title := false, in_desc := false
    current := { title := "", summary := "" }, depth := 0 }

/-- Tokenizer events delivered by `HTMLParser` to the three handler callbacks.
Attributes arrive as a list of name/value pairs, as in `handle_starttag`. -/
inductive Event where
  | starttag (tag : String) (attrs : List (String × String))
  | endtag (tag : String)
  | data (text : String)
deriving Repr, DecidableEq

/-- Boolean test that `small` occurs at the head of `big` (used by `hasSub`). -/
def leadsWith : List Char → List Char → Bool
  | [], _ => true
  | _ :: _, [] => false
  | c :: cs, d :: ds => c == d && leadsWith cs ds

/-- Boolean substring search: `small` occurs contiguously somewhere in `big`. -/
def hasSub (small : List Char) : List Char → Bool
  | [] => leadsWith small []
  | d :: ds => leadsWith small (d :: ds) || hasSub small ds

/-- Python's `needle in hay` test on strings: contiguous substring containment. -/
def pyIn (needle hay : String) : Bool := hasSub needle.data hay.data

/-- Python's `dict(attrs).get("class", "")`: the value of the last `"class"`
binding in the attribute list, defaulting to the empty string. -/
def getClassAttr (attrs : List (String × String)) : String :=
  (attrs.foldl (fun acc kv => if kv.1 == "class" then some kv.2 else acc) none).getD ""

/-- `TileParser.handle_starttag` (src/main.py lines 23-34). -/
def handle_starttag (st : ParserState) (tag : String) (attrs : List (String × String)) :
    ParserState :=
  let classes := getClassAttr attrs
  let st :=
    if pyIn "home-tile-outside" classes then
      { st with in_tile := true, current := { title := "", summary := "" }, depth := 0 }
    else st
  if st.in_tile then
    let st := { st with depth := st.depth + 1 }
    let st :=
      if tag == "b" && st.current.title == "" then { st with in_title := true } else st
    if pyIn "home-tile-description" classes then { st with in_desc := true } else st
  else st

/-- `TileParser.handle_endtag` (src/main.py lines 36-46).  The finalization
guard `if self._current.get("title")` is Python truthiness of the raw
(pre-normalization) title string. -/
def handle_endtag (st : ParserState) (tag : String) : ParserState :=
  if st.in_tile then
    let st := { st with depth := st.depth - 1 }
    let st := if tag == "b" then { st with in_title := false } else st
    let st := if st.in_desc && tag == "div" then { st with in_desc := false } else st
    if st.depth ≤ 0 then
      let st := { st with in_tile := false }
      if st.current.title == "" then st
      else { st with tiles := st.tiles ++ [st.current] }
    else st
  else st

/-- `TileParser.handle_data` (src/main.py lines 48-52). -/
def handle_data (st : ParserState) (text : String) : ParserState :=
  if st.in_title then
    { st with current := { st.current with title := st.current.title ++ text } }
  else if st.in_desc then
    { st with current := { st.current with summary := st.current.summary ++ text } }
  else st

/-- Dispatch one tokenizer event to the matching handler. -/
def handle_event (st : ParserState) (e : Event) : ParserState :=
  match e with
  | .starttag tag attrs => handle_starttag st tag attrs
  | .endtag tag => handle_endtag st tag
  | .data text => handle_data st text

/-- Feeding a stream of events through the parser (`parser.feed(html)`). -/
def feed (st : ParserState) (es : List Event) : ParserState :=
  es.foldl handle_event st

/-- Whitespace characters recognized by Python's `str.split()` with no
arguments (ASCII whitespace plus the Unicode space characters). -/
def isPySpace (c : Char) : Bool :=
  c == ' ' || c == '\t' || c == '\n' || c == '\r' || c == '\x0b' || c == '\x0c' ||
  ('\x1c' ≤ c && c ≤ '\x1f') || c == '\x85' || c == '\xa0' ||
  c == '\u1680' || ('\u2000' ≤ c && c ≤ '\u200A') ||
  c == '\u2028' || c == '\u2029' || c == '\u202F' || c == '\u205F' || c == '\u3000'

/-- Accumulator loop of `str.split()`: splits at runs of whitespace and
discards empty pieces.  `acc` is the current word, reversed. -/
def splitWsAux : List Char → List Char → List (List Char)
  | [], acc => if acc.isEmpty then [] else [acc.reverse]
  | c :: cs, acc =>
    if isPySpace c then
      if acc.isEmpty then splitWsAux cs [] else acc.reverse :: splitWsAux cs []
    else splitWsAux cs (c :: acc)

/-- Python's `s.split()` on a character list. -/
def pySplit (s : List Char) : List (List Char) := splitWsAux s []

/-- Python's `" ".join(words)` on character lists. -/
def joinSpace : List (List Char) → List Char
  | [] => []
  | [w] => w
  | w :: ws => w ++ ' ' :: joinSpace ws

/-- The whitespace cleanup `" ".join(s.split())` of `fetch_tiles`
(src/main.py lines 66-69), on character lists. -/
def normalizeChars (s : List Char) : List Char := joinSpace (pySplit s)

/-- The whitespace cleanup `" ".join(s.split())` of `fetch_tiles`, on strings. -/
def pyNormalize (s : String) : String := String.mk (normalizeChars s.data)

/-- The pure part of `fetch_tiles` (src/main.py lines 63-71): feed the event
stream from the fetched document, clean up whitespace on every finalized
tile, and keep the first six (`parser.tiles[:6]`). -/
def fetch_tiles (events : List Event) : List Tile :=
  let parser := feed initState events
  (parser.tiles.map fun t => { title := pyNormalize t.title, summary := pyNormalize t.summary }).take 6

example : pyIn "home-tile-outside" "xhome-tile-outsidey" = true := by decide
example : pyIn "home-tile-description" "home-tile-outside" = false := by decide
example : pyNormalize "  GDP \t Growth \n" = "GDP Growth" := by decide
example :
    fetch_tiles
      [.starttag "div" [("class", "home-tile-outside")],
       .starttag "b" [], .data "GDP Growth", .endtag "b",
       .starttag "div" [("class", "home-tile-description")],
       .data "Q3 rose 2%", .endtag "div", .endtag "div"] =
      [{ title := "GDP Growth", summary := "Q3 rose 2%" }] := by decide

/-! ### Whitespace normalization: structure of `str.split()` -/

/-- Every word produced by the split loop is non-empty and free of
whitespace characters (provided the running accumulator is). -/
lemma splitWsAux_words (s : List Char) :
    ∀ acc, (∀ c ∈ acc, isPySpace c = false) →
      ∀ w ∈ splitWsAux s acc, w ≠ [] ∧ ∀ c ∈ w, isPySpace c = false := by
  induction s with
  | nil =>
    intro acc hacc w hw
    cases acc with
    | nil => simp [splitWsAux] at hw
    | cons a as =>
      rw [splitWsAux] at hw
      have hw' : w = (a :: as).reverse := by simpa using hw
      subst hw'
      exact ⟨by simp, fun c hc => hacc c (List.mem_reverse.mp hc)⟩
  | cons c cs ih =>
    intro acc hacc w hw
    rw [splitWsAux] at hw
    by_cases hsp : isPySpace c
    · rw [if_pos hsp] at hw
      cases acc with
      | nil =>
        simp only [List.isEmpty_nil, if_true] at hw
        exact ih [] (by simp) w hw
      | cons a as =>
        rw [if_neg (by simp)] at hw
        rcases List.mem_cons.mp hw with hw' | hw'
        · subst hw'
          exact ⟨by simp, fun x hx => hacc x (List.mem_reverse.mp hx)⟩
        · exact ih [] (by simp) w hw'
    · rw [if_neg hsp] at hw
      refine ih (c :: acc) (fun x hx => ?_) w hw
      rcases List.mem_cons.mp hx with rfl | hx
      · simpa using hsp
      · exact hacc x hx

/-- Scanning a whitespace-free word just moves it into the accumulator. -/
lemma splitWsAux_word_head (w : List Char) :
    ∀ s acc, (∀ c ∈ w, isPySpace c = false) →
      splitWsAux (w ++ s) acc = splitWsAux s (w.reverse ++ acc) := by
  induction w with
  | nil => intro s acc _; simp
  | cons c cs ih =>
    intro s acc hw
    have hc : isPySpace c = false := hw c (by simp)
    rw [List.cons_append, splitWsAux, if_neg (by simp [hc])]
    rw [ih s (c :: acc) (fun x hx => hw x (List.mem_cons_of_mem c hx))]
    simp

/-- Splitting the space-joined form of a list of non-empty, whitespace-free
words recovers exactly those words. -/
lemma pySplit_joinSpace : ∀ ws : List (List Char),
    (∀ w ∈ ws, w ≠ [] ∧ ∀ c ∈ w, isPySpace c = false) →
    pySplit (joinSpace ws) = ws := by
  intro ws
  induction ws with
  | nil => intro _; rfl
  | cons w ws ih =>
    intro h
    obtain ⟨hw, hwc⟩ := h w (by simp)
    have hrev : ¬((w.reverse).isEmpty = true) := by
      simp [List.isEmpty_iff, List.reverse_eq_nil_iff, hw]
    cases ws with
    | nil =>
      show splitWsAux (joinSpace [w]) [] = [w]
      have hstep := splitWsAux_word_head w [] [] hwc
      rw [List.append_nil, List.append_nil] at hstep
      rw [show joinSpace [w] = w from rfl, hstep, splitWsAux, if_neg hrev,
        List.reverse_reverse]
    | cons w' ws' =>
      show splitWsAux (joinSpace (w :: w' :: ws')) [] = w :: w' :: ws'
      have hstep := splitWsAux_word_head w (' ' :: joinSpace (w' :: ws')) [] hwc
      rw [List.append_nil] at hstep
      rw [show joinSpace (w :: w' :: ws') = w ++ ' ' :: joinSpace (w' :: ws') from rfl]
      rw [hstep, splitWsAux, if_pos (by decide : isPySpace ' ' = true), if_neg hrev,
        List.reverse_reverse]
      exact congrArg (w :: ·) (ih fun x hx => h x (List.mem_cons_of_mem w hx))

/-- Normalization on character lists is idempotent. -/
lemma normalizeChars_idem (s : List Char) :
    normalizeChars (normalizeChars s) = normalizeChars s := by
  show joinSpace (pySplit (joinSpace (pySplit s))) = joinSpace (pySplit s)
  rw [pySplit_joinSpace (pySplit s) (splitWsAux_words s [] (by simp))]

/-- C6.  The whitespace normalization `" ".join(s.split())` that `fetch_tiles`
applies to every tile's title and summary is idempotent: normalizing an
already-normalized string returns it unchanged. -/
theorem pyNormalize_idempotent (s : String) :
    pyNormalize (pyNormalize s) = pyNormalize s :=
  congrArg String.mk (normalizeChars_idem s.data)

/-! ### Substring matching (Python's `in` on strings) -/

/-- The head test agrees with the list prefix relation. -/
lemma leadsWith_iff : ∀ a b : List Char, leadsWith a b = true ↔ a <+: b := by
  intro a
  induction a with
  | nil => intro b; simp [leadsWith, List.nil_prefix]
  | cons c cs ih =>
    intro b
    cases b with
    | nil => simp [leadsWith]
    | cons d ds => simp [leadsWith, List.cons_prefix_cons, ih ds]

/-- The substring search agrees with the contiguous-sublist relation. -/
lemma hasSub_iff (n : List Char) : ∀ h : List Char, hasSub n h = true ↔ n <:+: h := by
  intro h
  induction h with
  | nil => simp [hasSub, leadsWith_iff, List.infix_nil, List.prefix_nil]
  | cons d ds ih => simp [hasSub, leadsWith_iff, ih, List.infix_cons_iff]

/-- A container-marker start-tag always switches tile mode on. -/
lemma in_tile_of_marker (st : ParserState) (tag : String)
    (attrs : List (String × String))
    (hm : pyIn "home-tile-outside" (getClassAttr attrs) = true) :
    (handle_starttag st tag attrs).in_tile = true := by
  simp only [handle_starttag, hm, if_true]
  split <;> · split <;> simp

/-- C8.  Class-attribute matching is substring containment on the raw class
attribute value, not exact token matching: `pyIn` decides exactly the
contiguous-substring relation (so a marker occurring inside a longer class
token still matches), a start-tag whose class value contains
`"home-tile-outside"` anywhere enters tile mode, and, while a tile is in
progress, a start-tag whose class value contains `"home-tile-description"`
anywhere enters description mode. -/
theorem class_match_substring (st : ParserState) (tag : String)
    (attrs : List (String × String)) :
    (pyIn "home-tile-outside" (getClassAttr attrs) = true ↔
      "home-tile-outside".data <:+: (getClassAttr attrs).data) ∧
    (pyIn "home-tile-outside" (getClassAttr attrs) = true →
      (handle_starttag st tag attrs).in_tile = true) ∧
    (st.in_tile = true → pyIn "home-tile-description" (getClassAttr attrs) = true →
      (handle_starttag st tag attrs).in_desc = true) := by
  refine ⟨hasSub_iff _ _, in_tile_of_marker st tag attrs, fun hin hd => ?_⟩
  simp only [handle_starttag, hd, if_true]
  split_ifs <;> simp_all

/-- Concrete check of C8: the marker occurring strictly inside a longer
class token still triggers the match. -/
theorem class_match_substring_witness :
    (pyIn "home-tile-outside" (getClassAttr [("class", "xhome-tile-outsidey")]) = true ↔
      "home-tile-outside".data <:+: (getClassAttr [("class", "xhome-tile-outsidey")]).data) ∧
    (pyIn "home-tile-outside" (getClassAttr [("class", "xhome-tile-outsidey")]) = true →
      (handle_starttag initState "div" [("class", "xhome-tile-outsidey")]).in_tile = true) ∧
    (initState.in_tile = true →
      pyIn "home-tile-description" (getClassAttr [("class", "xhome-tile-outsidey")]) = true →
      (handle_starttag initState "div" [("class", "xhome-tile-outsidey")]).in_desc = true) :=
  class_match_substring initState "div" [("class", "xhome-tile-outsidey")]

/-! ### Text-data events -/

/-- C10.  A text-data event received while neither title-capture mode nor
description-capture mode is active leaves the entire parser state unchanged:
finalized tiles, accumulator, mode flags and depth counter all stay as they
were. -/
theorem handle_data_frame (st : ParserState) (text : String)
    (h1 : st.in_title = false) (h2 : st.in_desc = false) :
    handle_data st text = st := by
  simp [handle_data, h1, h2]

/-- Concrete check of C10: stray text outside any capture mode is ignored. -/
theorem handle_data_frame_witness :
    handle_data initState "stray text" = initState :=
  handle_data_frame initState "stray text" rfl rfl

/-- Concatenation of text fragments in document order. -/
def concatFrags : List String → String
  | [] => ""
  | f :: fs => f ++ concatFrags fs

/-- C7.  While title-capture mode is active, a run of adjacent text-data
events appends exactly the concatenation of the raw fragments, in document
order, to the accumulator's title; nothing is trimmed, lost or reordered,
and the summary and the finalized tiles are untouched. -/
theorem title_fragments_concat (st : ParserState) (frags : List String)
    (h : st.in_title = true) :
    (frags.foldl handle_data st).current.title
        = st.current.title ++ concatFrags frags ∧
    (frags.foldl handle_data st).current.summary = st.current.summary ∧
    (frags.foldl handle_data st).tiles = st.tiles := by
  induction frags generalizing st with
  | nil => simp [concatFrags, String.append_empty]
  | cons f fs ih =>
    have hstep : handle_data st f =
        { st with current := { st.current with title := st.current.title ++ f } } := by
      simp [handle_data, h]
    obtain ⟨ht, hs, htl⟩ := ih (handle_data st f) (by rw [hstep]; simpa using h)
    refine ⟨?_, ?_, ?_⟩
    · rw [List.foldl_cons, ht, hstep, concatFrags, ← String.append_assoc]
    · rw [List.foldl_cons, hs, hstep]
    · rw [List.foldl_cons, htl, hstep]

/-- Concrete check of C7: a title split over three text nodes concatenates
verbatim. -/
theorem title_fragments_concat_witness :
    (["GDP ", "", "Growth"].foldl handle_data
        { initState with in_title := true }).current.title
      = ({ initState with in_title := true } : ParserState).current.title
          ++ concatFrags ["GDP ", "", "Growth"] ∧
    (["GDP ", "", "Growth"].foldl handle_data
        { initState with in_title := true }).current.summary
      = ({ initState with in_title := true } : ParserState).current.summary ∧
    (["GDP ", "", "Growth"].foldl handle_data
        { initState with in_title := true }).tiles
      = ({ initState with in_title := true } : ParserState).tiles :=
  title_fragments_concat { initState with in_title := true } ["GDP ", "", "Growth"] rfl

/-! ### Nested container markers (C3) -/

/-- Parser state reached after opening a tile container and collecting the
bold title "GDP Growth": a tile is in progress with depth 1. -/
def midTileState : ParserState :=
  feed initState
    [.starttag "div" [("class", "home-tile-outside")],
     .starttag "b" [], .data "GDP Growth", .endtag "b"]

/-- Counterexample to C3 as stated: a container-marker start-tag that occurs
while a tile is already in progress DOES reset the in-progress accumulator
and the depth counter (`handle_starttag` has no "no tile in progress"
guard).  At this concrete input the claim would require the accumulated
title "GDP Growth" to survive and the depth to grow from 1 to 2; instead the
title is wiped and the depth is back at 1. -/
theorem nested_container_reset_cx :
    ¬ ((handle_starttag midTileState "div" [("class", "home-tile-outside")]).current
          = midTileState.current ∧
       (handle_starttag midTileState "div" [("class", "home-tile-outside")]).depth
          = midTileState.depth + 1) := by
  decide

/-- C3 amended.  A start-tag whose class contains the container marker while
a tile is already in progress restarts the scan in place: the in-progress
accumulator is reset to empty and the depth counter restarts (it is 1 after
the event, counting only the new container), while the already-finalized
tiles are untouched; a single boolean tile flag remains set, so at most one
tile is in progress at any point. -/
theorem nested_container_restarts (st : ParserState) (tag : String)
    (attrs : List (String × String)) (hin : st.in_tile = true)
    (hm : pyIn "home-tile-outside" (getClassAttr attrs) = true) :
    (handle_starttag st tag attrs).in_tile = true ∧
    (handle_starttag st tag attrs).depth = 1 ∧
    (handle_starttag st tag attrs).current.title = "" ∧
    (handle_starttag st tag attrs).current.summary = "" ∧
    (handle_starttag st tag attrs).tiles = st.tiles := by
  simp only [handle_starttag, hm, if_true]
  split_ifs <;> simp_all

/-- Concrete check of the amended C3 at the state of the counterexample. -/
theorem nested_container_restarts_witness :
    (handle_starttag midTileState "div" [("class", "home-tile-outside")]).in_tile = true ∧
    (handle_starttag midTileState "div" [("class", "home-tile-outside")]).depth = 1 ∧
    (handle_starttag midTileState "div" [("class", "home-tile-outside")]).current.title = "" ∧
    (handle_starttag midTileState "div" [("class", "home-tile-outside")]).current.summary = "" ∧
    (handle_starttag midTileState "div" [("class", "home-tile-outside")]).tiles
        = midTileState.tiles :=
  nested_container_restarts midTileState "div" [("class", "home-tile-outside")]
    (by decide) (by decide)

/-! ### Synthetic tile-container inputs (C1) -/

/-- One synthetic tile-container block, the markup shape of the spec's worked
example: container div, bold title, description div. -/
def tileBlockEvents (title summary : String) : List Event :=
  [.starttag "div" [("class", "home-tile-outside")],
   .starttag "b" [], .data title, .endtag "b",
   .starttag "div" [("class", "home-tile-description")],
   .data summary, .endtag "div", .endtag "div"]

/-- Events that cannot affect the parser while no tile is in progress and no
capture mode is active: anything but a start-tag carrying the container
marker in its class attribute. -/
def inertEvent : Event → Bool
  | .starttag _ attrs => !(pyIn "home-tile-outside" (getClassAttr attrs))
  | .endtag _ => true
  | .data _ => true

/-- A synthetic document: leading inert markup, then the container blocks,
each followed by its own inert filler markup. -/
def synthEvents (pre : List Event)
    (blocks : List ((String × String) × List Event)) : List Event :=
  pre ++ (blocks.map fun b => tileBlockEvents b.1.1 b.1.2 ++ b.2).flatten

/-- An inert event leaves a quiescent parser state unchanged. -/
lemma handle_inert (st : ParserState) (e : Event)
    (h1 : st.in_tile = false) (h2 : st.in_title = false) (h3 : st.in_desc = false)
    (he : inertEvent e = true) : handle_event st e = st := by
  cases e with
  | starttag tag attrs =>
    have hm : pyIn "home-tile-outside" (getClassAttr attrs) = false := by
      simpa [inertEvent] using he
    simp [handle_event, handle_starttag, hm, h1]
  | endtag tag => simp [handle_event, handle_endtag, h1]
  | data text => simp [handle_event, handle_data, h2, h3]

/-- A run of inert events leaves a quiescent parser state unchanged. -/
lemma feed_inert (es : List Event) (st : ParserState)
    (h1 : st.in_tile = false) (h2 : st.in_title = false) (h3 : st.in_desc = false)
    (hes : ∀ e ∈ es, inertEvent e = true) : feed st es = st := by
  induction es with
  | nil => rfl
  | cons e es ih =>
    show feed (handle_event st e) es = st
    rw [handle_inert st e h1 h2 h3 (hes e (by simp))]
    exact ih fun x hx => hes x (List.mem_cons_of_mem e hx)

/-- `feed` splits over concatenated event streams. -/
lemma feed_append (st : ParserState) (a b : List Event) :
    feed st (a ++ b) = feed (feed st a) b :=
  List.foldl_append _ _ _ _

/-- Running one container block with non-empty title finalizes exactly one
tile and returns to the quiescent state, irrespective of the incoming
accumulator, flags and depth. -/
lemma feed_tileBlock (st : ParserState) (t s : String) (ht : t ≠ "") :
    feed st (tileBlockEvents t s) =
      { tiles := st.tiles ++ [{ title := t, summary := s }],
        in_tile := false, in_title := false, in_desc := false,
        current := { title := t, summary := s }, depth := 0 } := by
  have ht' : (t == "") = false := beq_eq_false_iff_ne.mpr ht
  simp +decide [feed, tileBlockEvents, handle_event, handle_starttag,
    handle_endtag, handle_data, getClassAttr, ht', String.empty_append]

/-- Running a list of container blocks (with inert filler after each one)
from a quiescent state appends exactly one tile per block, in order. -/
lemma feed_blocks (blocks : List ((String × String) × List Event)) :
    ∀ st : ParserState, st.in_tile = false → st.in_title = false →
      st.in_desc = false →
      (∀ b ∈ blocks, b.1.1 ≠ "") →
      (∀ b ∈ blocks, ∀ e ∈ b.2, inertEvent e = true) →
      ∃ cur d,
        feed st ((blocks.map fun b => tileBlockEvents b.1.1 b.1.2 ++ b.2).flatten)
          = { tiles := st.tiles ++
                blocks.map fun b => { title := b.1.1, summary := b.1.2 },
              in_tile := false, in_title := false, in_desc := false,
              current := cur, depth := d } := by
  induction blocks with
  | nil =>
    intro st h1 h2 h3 _ _
    refine ⟨st.current, st.depth, ?_⟩
    cases st
    simp_all [feed]
  | cons b rest ih =>
    intro st h1 h2 h3 ht hf
    obtain ⟨⟨t, s⟩, fill⟩ := b
    have htb : t ≠ "" := ht ((t, s), fill) (by simp)
    rw [List.map_cons, List.flatten_cons, List.append_assoc, feed_append]
    rw [feed_tileBlock st t s htb, feed_append]
    rw [feed_inert fill _ rfl rfl rfl (hf ((t, s), fill) (by simp))]
    obtain ⟨cur, d, hrest⟩ :=
      ih { tiles := st.tiles ++ [{ title := t, summary := s }],
           in_tile := false, in_title := false, in_desc := false,
           current := { title := t, summary := s }, depth := 0 }
        rfl rfl rfl
        (fun x hx => ht x (List.mem_cons_of_mem _ hx))
        (fun x hx => hf x (List.mem_cons_of_mem _ hx))
    refine ⟨cur, d, ?_⟩
    rw [hrest]
    simp [List.append_assoc]

/-- C1.  For every synthetic input made of K (0 ≤ K ≤ 10) non-nested
container blocks with non-empty bold titles — with arbitrary inert markup
before, between and after them — the extractor returns exactly min(K, 6)
tiles, in document order, carrying the normalized titles and summaries of
the blocks. -/
theorem extractor_min_k_six (pre : List Event)
    (blocks : List ((String × String) × List Event))
    (hK : blocks.length ≤ 10)
    (ht : ∀ b ∈ blocks, b.1.1 ≠ "")
    (hpre : ∀ e ∈ pre, inertEvent e = true)
    (hfill : ∀ b ∈ blocks, ∀ e ∈ b.2, inertEvent e = true) :
    fetch_tiles (synthEvents pre blocks)
        = (blocks.map fun b =>
            ({ title := pyNormalize b.1.1, summary := pyNormalize b.1.2 } : Tile)).take 6 ∧
    (fetch_tiles (synthEvents pre blocks)).length = min blocks.length 6 := by
  obtain ⟨cur, d, hmain⟩ := feed_blocks blocks initState rfl rfl rfl ht hfill
  have hfeed : feed initState (synthEvents pre blocks)
      = { tiles := blocks.map fun b => { title := b.1.1, summary := b.1.2 },
          in_tile := false, in_title := false, in_desc := false,
          current := cur, depth := d } := by
    rw [synthEvents, feed_append, feed_inert pre initState rfl rfl rfl hpre, hmain]
    rfl
  have hfirst : fetch_tiles (synthEvents pre blocks)
      = (blocks.map fun b =>
          ({ title := pyNormalize b.1.1, summary := pyNormalize b.1.2 } : Tile)).take 6 := by
    simp only [fetch_tiles, hfeed, List.map_map]
    rfl
  refine ⟨hfirst, ?_⟩
  rw [hfirst, List.length_take, List.length_map, Nat.min_comm]

/-- Seven synthetic container blocks, no filler. -/
def sevenBlocks : List ((String × String) × List Event) :=
  [(("T1", "S1"), []), (("T2", "S2"), []), (("T3", "S3"), []),
   (("T4", "S4"), []), (("T5", "S5"), []), (("T6", "S6"), []),
   (("T7", "S7"), [])]

/-- Concrete check of C1 at K = 7: only the first 6 tiles are returned. -/
theorem extractor_min_k_six_witness :
    fetch_tiles (synthEvents [] sevenBlocks)
        = (sevenBlocks.map fun b =>
            ({ title := pyNormalize b.1.1, summary := pyNormalize b.1.2 } : Tile)).take 6 ∧
    (fetch_tiles (synthEvents [] sevenBlocks)).length = min sevenBlocks.length 6 :=
  extractor_min_k_six [] sevenBlocks (by decide) (by decide) (by decide) (by decide)

/-! ### Raw versus normalized titles (C2) -/

/-- A container whose bold title is a single space: the raw title `" "` is
truthy in Python, so the tile is kept, and normalization then empties it. -/
def wsTitleEvents : List Event :=
  [.starttag "div" [("class", "home-tile-outside")],
   .starttag "b" [], .data " ", .endtag "b", .endtag "div"]

/-- Counterexample to C2 as stated: the extractor CAN return a tile whose
normalized title is empty.  The finalization guard tests the raw
(pre-normalization) title, so a whitespace-only bold title passes the guard
and is then normalized to the empty string. -/
theorem whitespace_title_cx :
    fetch_tiles wsTitleEvents = [{ title := "", summary := "" }] ∧
    ¬ (∀ tile ∈ fetch_tiles wsTitleEvents, tile.title ≠ "") := by
  decide

/-- `handle_starttag` never touches the finalized tiles. -/
lemma tiles_starttag (st : ParserState) (tag : String)
    (attrs : List (String × String)) :
    (handle_starttag st tag attrs).tiles = st.tiles := by
  simp only [handle_starttag]
  split_ifs <;> rfl

/-- `handle_data` never touches the finalized tiles. -/
lemma tiles_data (st : ParserState) (text : String) :
    (handle_data st text).tiles = st.tiles := by
  simp only [handle_data]
  split_ifs <;> rfl

/-- `handle_endtag` preserves the invariant that every finalized tile has a
non-empty raw title: the only appended tile just passed the truthiness
guard on its raw title. -/
lemma tiles_endtag (st : ParserState) (tag : String)
    (h : ∀ x ∈ st.tiles, x.title ≠ "") :
    ∀ x ∈ (handle_endtag st tag).tiles, x.title ≠ "" := by
  intro x hx
  simp only [handle_endtag] at hx
  split_ifs at hx <;> simp_all <;> (try rcases hx with hx | rfl) <;> simp_all

/-- The parser invariant: every finalized tile has a non-empty raw title. -/
lemma tiles_titles_invariant (es : List Event) :
    ∀ st : ParserState, (∀ x ∈ st.tiles, x.title ≠ "") →
      ∀ x ∈ (feed st es).tiles, x.title ≠ "" := by
  induction es with
  | nil => intro st h; exact h
  | cons e es ih =>
    intro st h
    refine ih (handle_event st e) ?_
    cases e with
    | starttag tag attrs => simpa only [handle_event, tiles_starttag] using h
    | endtag tag => exact tiles_endtag st tag h
    | data text => simpa only [handle_event, tiles_data] using h

/-- C2 amended.  Every tile the parser finalizes has a non-empty RAW
(pre-normalization) title — a container whose accumulated title text is the
empty string yields no tile — but after `fetch_tiles` normalizes, a
whitespace-only raw title leaves a tile whose normalized title is empty
(see the counterexample). -/
theorem finalized_title_nonempty (es : List Event) :
    ∀ tile ∈ (feed initState es).tiles, tile.title ≠ "" :=
  tiles_titles_invariant es initState (by simp [initState])

/-- The spec's worked single-tile example, as an event stream. -/
def exampleTileEvents : List Event :=
  [.starttag "div" [("class", "home-tile-outside")],
   .starttag "b" [], .data "GDP Growth", .endtag "b",
   .starttag "div" [("class", "home-tile-description")],
   .data "Q3 rose 2%", .endtag "div", .endtag "div"]

/-- Concrete check of the amended C2 on the worked example. -/
theorem finalized_title_nonempty_witness :
    ({ title := "GDP Growth", summary := "Q3 rose 2%" } : Tile).title ≠ "" :=
  finalized_title_nonempty exampleTileEvents
    { title := "GDP Growth", summary := "Q3 rose 2%" } (by decide)

/-! ### The RSS 2.0 feed builder (`generate_rss`) -/

/-- An `xml.etree.ElementTree` element: tag, attributes, optional text
content and child elements in document order. -/
inductive ETree where
  | mk (tag : String) (attrs : List (String × String)) (text : Option String)
      (children : List ETree)

/-- Tag name of an element. -/
def ETree.tag : ETree → String
  | .mk t _ _ _ => t

/-- Attribute list of an element. -/
def ETree.attrs : ETree → List (String × String)
  | .mk _ a _ _ => a

/-- Text content of an element. -/
def ETree.text : ETree → Option String
  | .mk _ _ x _ => x

/-- Child elements of an element. -/
def ETree.children : ETree → List ETree
  | .mk _ _ _ c => c

/-- A leaf `SubElement` whose `.text` is set to the given string. -/
def textElem (tag txt : String) : ETree := .mk tag [] (some txt) []

/-- One `<item>` element of the feed — title, description and the shared
per-run publish timestamp — as built by the loop of `generate_rss`. -/
def rss_item (now : String) (tile : Tile) : ETree :=
  .mk "item" [] none
    [textElem "title" tile.title,
     textElem "description" tile.summary,
     textElem "pubDate" now]

/-- The element tree built by `generate_rss` (src/main.py lines 74-96):
`now` is the RFC-2822 rendering `format_datetime(datetime.now(timezone.utc))`
of the single build timestamp, shared by `lastBuildDate` and every item's
`pubDate`.  Serialization by `ET.indent` plus `ET.tostring` only inserts
indentation whitespace and escapes text content; the text escaping is
modelled by `escapeCdata` below. -/
def generate_rss (now : String) (tiles : List Tile) : ETree :=
  .mk "rss" [("version", "2.0")] none
    [.mk "channel" [] none
      ([textElem "title" "Trading Economics Summary",
        textElem "link" "https://tradingeconomics.com",
        textElem "description" "Hourly snapshot of Trading Economics homepage tiles",
        textElem "lastBuildDate" now]
       ++ tiles.map (rss_item now))]

/-- The `<item>` children of a channel element. -/
def channelItems (ch : ETree) : List ETree :=
  ch.children.filter fun e => e.tag == "item"

/-- Text content of the first child with the given tag: how an XML consumer
reads `title`, `description`, `pubDate` and `lastBuildDate`. -/
def childText (e : ETree) (t : String) : Option String :=
  match e.children.find? (fun c => c.tag == t) with
  | some c => c.text
  | none => none

/-- Escaping of one text character, as `ElementTree` serialization performs
on text content (`&` first, then `<`, then `>`; the library's sequential
replaces are equivalent to this per-character expansion). -/
def escapeCdataChar (c : Char) : List Char :=
  if c = '&' then ['&', 'a', 'm', 'p', ';']
  else if c = '<' then ['&', 'l', 't', ';']
  else if c = '>' then ['&', 'g', 't', ';']
  else [c]

/-- XML text-content escaping over a character list. -/
def escapeCdata : List Char → List Char
  | [] => []
  | c :: cs => escapeCdataChar c ++ escapeCdata cs

/-- Entity decoding performed by a standard XML parser on text content. -/
def unescapeXml : List Char → List Char
  | [] => []
  | c :: rest =>
    if c = '&' ∧ rest.take 4 = ['a', 'm', 'p', ';'] then '&' :: unescapeXml (rest.drop 4)
    else if c = '&' ∧ rest.take 3 = ['l', 't', ';'] then '<' :: unescapeXml (rest.drop 3)
    else if c = '&' ∧ rest.take 3 = ['g', 't', ';'] then '>' :: unescapeXml (rest.drop 3)
    else c :: unescapeXml rest
termination_by l => l.length
decreasing_by all_goals (simp; try omega)

/-- XML text-content escaping on strings. -/
def escapeStr (s : String) : String := String.mk (escapeCdata s.data)

/-- XML entity decoding on strings. -/
def unescapeStr (s : String) : String := String.mk (unescapeXml s.data)

/-- Parsing undoes serialization on text content: decoding the escaped form
of any string gives the string back. -/
lemma unescape_escape (s : List Char) : unescapeXml (escapeCdata s) = s := by
  induction s with
  | nil => simp [escapeCdata, unescapeXml]
  | cons c cs ih =>
    by_cases h1 : c = '&'
    · subst h1; simp +decide [escapeCdata, escapeCdataChar, unescapeXml, ih]
    · by_cases h2 : c = '<'
      · subst h2; simp +decide [escapeCdata, escapeCdataChar, unescapeXml, ih]
      · by_cases h3 : c = '>'
        · subst h3; simp +decide [escapeCdata, escapeCdataChar, unescapeXml, ih]
        · simp [escapeCdata, escapeCdataChar, unescapeXml, h1, h2, h3, ih]

/-- Round trip of the text escaping, on strings. -/
lemma unescapeStr_escapeStr (s : String) : unescapeStr (escapeStr s) = s := by
  cases s with
  | mk l => exact congrArg String.mk (unescape_escape l)

/-- C4.  The feed builder's document has exactly one channel; the channel
holds one `<item>` per input tile, in input order, whose `title` and
`description` read back as the corresponding tile's fields (serialization
escapes the text and parsing decodes it again — the round trip is the
identity); every item's `pubDate` is the single build timestamp `now`, the
same value used for the channel's `lastBuildDate`. -/
theorem generate_rss_round_trip (now : String) (tiles : List Tile) :
    (generate_rss now tiles).tag = "rss" ∧
    ∃ ch, (generate_rss now tiles).children = [ch] ∧
      ch.tag = "channel" ∧
      channelItems ch = tiles.map (rss_item now) ∧
      (channelItems ch).length = tiles.length ∧
      childText ch "lastBuildDate" = some now ∧
      ∀ tile ∈ tiles,
        childText (rss_item now tile) "title" = some tile.title ∧
        childText (rss_item now tile) "description" = some tile.summary ∧
        childText (rss_item now tile) "pubDate" = some now ∧
        unescapeStr (escapeStr tile.title) = tile.title ∧
        unescapeStr (escapeStr tile.summary) = tile.summary := by
  have hitems :
      (List.filter (fun e => e.tag == "item") (tiles.map (rss_item now)))
        = tiles.map (rss_item now) := by
    rw [List.filter_map]
    have : List.filter ((fun e => e.tag == "item") ∘ rss_item now) tiles = tiles :=
      List.filter_eq_self.mpr fun a _ => rfl
    rw [this]
  refine ⟨rfl, _, rfl, rfl, ?_, ?_, ?_, fun tile _ =>
    ⟨rfl, ?_, ?_, unescapeStr_escapeStr _, unescapeStr_escapeStr _⟩⟩
  · simp only [channelItems, ETree.children, List.filter_append, hitems]
    simp +decide [textElem, ETree.tag, List.filter_cons]
  · simp only [channelItems, ETree.children, List.filter_append, hitems]
    simp +decide [textElem, ETree.tag, List.filter_cons, List.length_map]
  · simp +decide [childText, ETree.children, textElem, ETree.tag, ETree.text,
      List.find?_cons]
  · simp +decide [childText, rss_item, ETree.children, textElem, ETree.tag,
      ETree.text, List.find?_cons]
  · simp +decide [childText, rss_item, ETree.children, textElem, ETree.tag,
      ETree.text, List.find?_cons]

/-- One tile whose fields contain XML-unsafe characters. -/
def unsafeTile : Tile := { title := "A&B", summary := "x<y>z" }

/-- The build timestamp used in the concrete checks. -/
def nowStamp : String := "Sun, 12 Oct 2025 00:00:00 -0000"

/-- Concrete check of C4 on one tile whose fields contain XML-unsafe
characters. -/
theorem generate_rss_round_trip_witness :
    (generate_rss nowStamp [unsafeTile]).tag = "rss" ∧
    ∃ ch, (generate_rss nowStamp [unsafeTile]).children = [ch] ∧
      ch.tag = "channel" ∧
      channelItems ch = [unsafeTile].map (rss_item nowStamp) ∧
      (channelItems ch).length = [unsafeTile].length ∧
      childText ch "lastBuildDate" = some nowStamp ∧
      ∀ tile ∈ [unsafeTile],
        childText (rss_item nowStamp tile) "title" = some tile.title ∧
        childText (rss_item nowStamp tile) "description" = some tile.summary ∧
        childText (rss_item nowStamp tile) "pubDate" = some nowStamp ∧
        unescapeStr (escapeStr tile.title) = tile.title ∧
        unescapeStr (escapeStr tile.summary) = tile.summary :=
  generate_rss_round_trip nowStamp [unsafeTile]

/-! ### The CLI (`main`, src/main.py lines 111-140) -/

/-- The fixed static index page `INDEX_HTML` (src/main.py lines 99-108). -/
def INDEX_HTML : String :=
  "<!DOCTYPE html>\n<html lang=\"en\">\n<head><meta charset=\"utf-8\"><title>Trading Economics Summary</title></head>\n<body>\n<h1>Trading Economics Summary</h1>\n<p>Subscribe to the <a href=\"feed.xml\">RSS feed</a> for hourly updates.</p>\n</body>\n</html>\n"

/-- Directory part of a simple relative or absolute path: the characters
before the last slash, empty when there is none (`pathlib.Path(p).parent`). -/
def parentChars (l : List Char) : List Char :=
  ((l.reverse.dropWhile fun c => !(c == '/')).drop 1).reverse

/-- The sibling `index.html` of the RSS output path:
`str(rss_path.parent / "index.html")` for the simple paths the CLI
receives (`pathlib` renders the `.`-parent of a bare filename as no
leading directory). -/
def indexPath (p : String) : String :=
  let dir := String.mk (parentChars p.data)
  if dir = "" then "index.html" else dir ++ "/index.html"

/-- The delimiter line `"=" * 80` of the stdout report. -/
def eqLine : String := String.mk (List.replicate 80 '=')

/-- The human-readable stdout report of the no-argument mode: one delimited
block per tile, in order, then a final blank line. -/
def humanReport (tiles : List Tile) : String :=
  String.join ((tiles.enumFrom 1).map fun it =>
    "\n" ++ eqLine ++ "\n" ++ "Tile " ++ toString it.1 ++ ": " ++ it.2.title
      ++ "\n" ++ eqLine ++ "\n" ++ it.2.summary ++ "\n") ++ "\n"

/-- What one run of `main` does after the fetch, as a function of the
`--rss` argument and the extracted tiles: either the run terminates with
`SystemExit(message)` — a non-zero exit status, nothing written — or it
succeeds with a list of (path, content) file writes and the text printed to
standard output.  `rssDoc` stands for the string `generate_rss(tiles)`
(serialized from `generate_rss` above); an empty-string `--rss` value is
falsy in Python and falls through to the stdout report, and `"-"` selects
RSS-on-stdout. -/
def main_logic (rssArg : Option String) (rssDoc : String) (tiles : List Tile) :
    Except String (List (String × String) × String) :=
  if tiles = [] then
    Except.error "Error: no tiles scraped (site may be blocking this IP)"
  else
    match rssArg with
    | some p =>
      if p = "-" then Except.ok ([], rssDoc)
      else if p = "" then Except.ok ([], humanReport tiles)
      else
        Except.ok ([(p, rssDoc), (indexPath p, INDEX_HTML)],
          "Wrote " ++ p ++ " and " ++ indexPath p ++ "\n")
    | none => Except.ok ([], humanReport tiles)

/-- The files a run writes; none when it terminates with an error. -/
def filesWritten (r : Except String (List (String × String) × String)) :
    List (String × String) :=
  match r with
  | .error _ => []
  | .ok out => out.1

/-- C5.  When extraction produces zero tiles, the run terminates with the
`SystemExit` error message (a non-zero exit status) before any output mode
is chosen, and no file — neither the RSS file nor `index.html` — is
written, whatever the `--rss` argument was. -/
theorem empty_tiles_hard_failure (rssArg : Option String) (rssDoc : String) :
    main_logic rssArg rssDoc []
        = Except.error "Error: no tiles scraped (site may be blocking this IP)" ∧
    filesWritten (main_logic rssArg rssDoc []) = [] := by
  constructor <;> rfl

/-- C9.  In file-output mode (a `--rss` path that is neither the stdout
sentinel `"-"` nor empty), the static page written next to the feed is the
single fixed string `INDEX_HTML`, whatever path was given: it contains the
literal relative hyperlink target `href="feed.xml"` and does not depend on
the actual RSS output filename. -/
theorem index_page_fixed (p rssDoc : String) (tiles : List Tile)
    (hdash : p ≠ "-") (hempty : p ≠ "") (htiles : tiles ≠ []) :
    main_logic (some p) rssDoc tiles
        = Except.ok ([(p, rssDoc), (indexPath p, INDEX_HTML)],
            "Wrote " ++ p ++ " and " ++ indexPath p ++ "\n") ∧
    pyIn "href=\"feed.xml\"" INDEX_HTML = true := by
  constructor
  · simp [main_logic, htiles, hdash, hempty]
  · decide

/-- Concrete check of C9 at an RSS path that is not named `feed.xml`: the
index page content is still `INDEX_HTML`, still linking to `feed.xml`. -/
theorem index_page_fixed_witness :
    main_logic (some "public/mm-te.xml") "<rss/>" [{ title := "T", summary := "S" }]
        = Except.ok ([("public/mm-te.xml", "<rss/>"),
            (indexPath "public/mm-te.xml", INDEX_HTML)],
            "Wrote " ++ "public/mm-te.xml" ++ " and "
              ++ indexPath "public/mm-te.xml" ++ "\n") ∧
    pyIn "href=\"feed.xml\"" INDEX_HTML = true :=
  index_page_fixed "public/mm-te.xml" "<rss/>" [{ title := "T", summary := "S" }]
    (by decide) (by decide) (by decide)
